import Mathlib

/-!
Shallow embedding of the billing-app backend (`src/index.js`,
`src/models/Bill.js`, `src/models/Counter.js`).

The embedding covers the two routes the claims are about:

* `POST /api/bills` — atomic counter increment (`Counter.findOneAndUpdate`
  with `$inc` and `upsert`), invoice-number construction, Mongoose schema
  validation of the new `Bill`, persistence;
* `GET /api/bills` — listing, `sort({createdAt:-1}).limit(50)`;
* `GET /api/analytics` — the `$facet` aggregation (`totalStats`,
  `dailySales`, `topProducts`) and the JS-side response formatting.

Machine reals of the source (`total`, `qty`) are modelled as `Int`;
instants (`createdAt`) as records of civil-date components plus a
time-of-day component, with `key` the corresponding absolute-time ordering.
MongoDB's `$group` stage is modelled denotationally: one output document per
distinct key with the `$sum` accumulator over the documents of the group,
groups listed in first-encounter order (MongoDB leaves the order of `$group`
output unspecified; both `dailySales` and `topProducts` apply a `$sort`
immediately after, and for equal sort keys the first-encounter model realizes
the stable-sort behaviour claimed by the spec). `$sort` is modelled by the
stable `List.insertionSort`.
-/

namespace Billing

/-- A civil instant: year, month, day and a time-of-day component
(e.g. milliseconds since midnight). Models the `createdAt: Date` fields. -/
structure Date where
  y : Nat
  m : Nat
  d : Nat
  tod : Nat
deriving DecidableEq

/-- Absolute-time comparison key of an instant. For valid civil data
(`m ≤ 12`, `d ≤ 31`, `tod < 100000`) it orders instants chronologically. -/
def Date.key (t : Date) : Nat :=
  ((t.y * 13 + t.m) * 32 + t.d) * 100000 + t.tod

/-- Zero-padded two-digit rendering of a date component, as used by
MongoDB's `$dateToString` with `%d` / `%m`. -/
def pad2 (n : Nat) : String :=
  if n < 10 then "0" ++ toString n else toString n

/-- The `"%d/%m"` day label of `$dateToString` in the `dailySales` facet. -/
def dayLabel (t : Date) : String :=
  pad2 t.d ++ "/" ++ pad2 t.m

/-- One entry of a bill's `items` array, with the fields the analytics
pipeline reads (`items.name`, `items.qty`). -/
structure Item where
  name : String
  qty : Int
deriving DecidableEq

/-- A persisted bill, after the `BillSchema` of `src/models/Bill.js`. -/
structure Bill where
  billNumber : String
  customerPhone : String
  total : Int
  paymentMode : String
  items : List Item
  createdAt : Date
deriving DecidableEq

/-- Distinct elements of a list in first-encounter order: the set of group
keys produced by a `$group` stage, in the order the documents present them. -/
def dedupFirst (l : List String) : List String :=
  l.foldl (fun acc x => if acc.contains x then acc else acc ++ [x]) []

/-- Sum of the values attached to key `k` in a keyed list: the `$sum`
accumulator of the group with `_id = k`. -/
def valSum (k : String) (l : List (String × Int)) : Int :=
  ((l.filter (fun p => p.1 == k)).map (fun p => p.2)).sum

/-- Denotation of a `$group` stage with `_id` the key and a `$sum` value
accumulator: one output per distinct key, in first-encounter order. -/
def groupSum (l : List (String × Int)) : List (String × Int) :=
  (dedupFirst (l.map Prod.fst)).map (fun k => (k, valSum k l))

/-- Lexicographic comparison of character sequences, by code point. -/
def charListLe : List Char → List Char → Bool
  | [], _ => true
  | _ :: _, [] => false
  | a :: as, b :: bs =>
    if a.val < b.val then true
    else if b.val < a.val then false
    else charListLe as bs

/-- Lexicographic order on strings: the comparison BSON applies to the
`"%d/%m"` label strings (byte order and code-point order agree on these
ASCII labels). -/
def strLe (a b : String) : Bool := charListLe a.data b.data

/-- Ascending order on the `_id` string, as in the `dailySales` facet's
`$sort: { _id: 1 }`. -/
def labelLe (p q : String × Int) : Prop := strLe p.1 q.1 = true

instance : DecidableRel labelLe :=
  fun p q => inferInstanceAs (Decidable (strLe p.1 q.1 = true))

/-- Descending order on the accumulated quantity, as in the `topProducts`
facet's `$sort: { qty: -1 }`. -/
def qtyGe (p q : String × Int) : Prop := q.2 ≤ p.2

instance : DecidableRel qtyGe :=
  fun p q => inferInstanceAs (Decidable (q.2 ≤ p.2))

instance : IsTotal (String × Int) qtyGe :=
  ⟨fun a b => Int.le_total b.2 a.2⟩

instance : IsTrans (String × Int) qtyGe :=
  ⟨fun _ _ _ h1 h2 => Int.le_trans h2 h1⟩

/-- The accumulators of the `totalStats` facet's single `$group` document. -/
structure Stats where
  totalRevenue : Int
  totalOrders : Int
  cashSales : Int
  onlineSales : Int
deriving DecidableEq

/-- The `totalStats` facet: `$group` with `_id: null` produces no document
on an empty input and exactly one document otherwise, carrying the four
`$sum` accumulators (`$cond` on `paymentMode` for the payment split). -/
def totalStatsFacet (bills : List Bill) : List Stats :=
  match bills with
  | [] => []
  | _ =>
    [{ totalRevenue := (bills.map (fun b => b.total)).sum,
       totalOrders := (bills.length : Int),
       cashSales :=
         (bills.map (fun b => if b.paymentMode == "cash" then b.total else 0)).sum,
       onlineSales :=
         (bills.map (fun b => if b.paymentMode != "cash" then b.total else 0)).sum }]

/-- The JS fallback `result.totalStats[0] || {totalRevenue: 0, ...}`. -/
def statsOr0 (l : List Stats) : Stats :=
  l.headD { totalRevenue := 0, totalOrders := 0, cashSales := 0, onlineSales := 0 }

/-- The `dailySales` facet: group by the `"%d/%m"` label of `createdAt`,
sum `total`, then `$sort: { _id: 1 }` on the label string. -/
def dailySalesFacet (bills : List Bill) : List (String × Int) :=
  List.insertionSort labelLe
    (groupSum (bills.map (fun b => (dayLabel b.createdAt, b.total))))

/-- The `topProducts` facet: `$unwind` the items, group by `items.name`
summing `items.qty`, `$sort: { qty: -1 }`, `$limit: 5`. -/
def topProductsFacet (bills : List Bill) : List (String × Int) :=
  (List.insertionSort qtyGe
    (groupSum ((bills.map (fun b => b.items)).flatten.map
      (fun it => (it.name, it.qty))))).take 5

/-- The `paymentStats` object of the response. -/
structure PaymentStats where
  cash : Int
  online : Int
deriving DecidableEq

/-- The `chart` object of the response. -/
structure Chart where
  labels : List String
  data : List Int
deriving DecidableEq

/-- One entry of the response's `topProducts` array. -/
structure TopProduct where
  name : String
  qty : Int
deriving DecidableEq

/-- The JSON body returned by `GET /api/analytics`. -/
structure AnalyticsSummary where
  totalRevenue : Int
  totalOrders : Int
  paymentStats : PaymentStats
  chart : Chart
  topProducts : List TopProduct
deriving DecidableEq

/-- `GET /api/analytics` on the set of bills matched by the window's
`$match` stage: the `$facet` aggregation followed by the JS response
formatting. Total as a function: with the `||` fallback on `totalStats`
and `$facet` always yielding exactly one result document, the route never
errors on an empty bill set. -/
def analytics (bills : List Bill) : AnalyticsSummary :=
  let stats := statsOr0 (totalStatsFacet bills)
  let daily := dailySalesFacet bills
  { totalRevenue := stats.totalRevenue,
    totalOrders := stats.totalOrders,
    paymentStats := { cash := stats.cashSales, online := stats.onlineSales },
    chart := { labels := daily.map Prod.fst, data := daily.map Prod.snd },
    topProducts := (topProductsFacet bills).map (fun p => ⟨p.1, p.2⟩) }

/-- Newest-first order on bills, as in `Bill.find().sort({ createdAt: -1 })`. -/
def createdAtDesc (a b : Bill) : Prop := b.createdAt.key ≤ a.createdAt.key

instance : DecidableRel createdAtDesc :=
  fun a b => inferInstanceAs (Decidable (b.createdAt.key ≤ a.createdAt.key))

instance : IsTotal Bill createdAtDesc :=
  ⟨fun a b => Nat.le_total b.createdAt.key a.createdAt.key⟩

instance : IsTrans Bill createdAtDesc :=
  ⟨fun _ _ _ hab hbc => Nat.le_trans hbc hab⟩

/-- `GET /api/bills`: `Bill.find().sort({createdAt:-1}).limit(50)`. The
route reads nothing from the request: its only input is the stored bill
set; there is no `since` or `limit` parameter. -/
def listBills (bills : List Bill) : List Bill :=
  (List.insertionSort createdAtDesc bills).take 50

/-- The parsed body of a `POST /api/bills` request; `Option` marks fields
that may be absent from the JSON. -/
structure BillRequest where
  customerPhone : Option String
  items : List Item
  total : Option Int
  paymentMode : Option String
deriving DecidableEq

/-- The durable store as the bill-creation route sees it: the `bill_seq`
counter document (absent before the first upsert) and the persisted bills. -/
structure Store where
  counter : Option Nat
  bills : List Bill
deriving DecidableEq

/-- The sequence value the next `Counter.findOneAndUpdate({id:"bill_seq"},
{$inc:{seq:1}}, {new:true, upsert:true})` returns: the stored value plus
one, the upsert creating the document on first use. (Only the starting
point depends on upsert/default subtleties; no claim does.) -/
def nextSeq (st : Store) : Nat :=
  (match st.counter with
   | some s => s
   | none => 0) + 1

/-- Outcome of one `POST /api/bills` call. The counter is advanced before
the bill is validated and saved, so a failed save still consumes the
sequence value (`failed` carries it). -/
inductive CreateResult where
  | created (seq : Nat) (billNumber : String)
  | failed (seq : Nat)
deriving DecidableEq

/-- Whether the call failed validation (the route's `catch` branch). -/
def CreateResult.isFailure : CreateResult → Bool
  | .created _ _ => false
  | .failed _ => true

/-- The sequence value the call consumed. -/
def CreateResult.seq : CreateResult → Nat
  | .created s _ => s
  | .failed s => s

/-- `POST /api/bills`: increment the counter, build
`billNumber = INV-<seq>`, then validate and save the `Bill` document.
`BillSchema` requires `total` and `paymentMode` (with `customerPhone`
defaulting to `""` and no constraint on the sign of `total`); a validation
failure persists nothing but the counter stays advanced. -/
def createBill (st : Store) (now : Date) (r : BillRequest) : Store × CreateResult :=
  let seq := nextSeq st
  let bn := "INV-" ++ toString seq
  match r.total, r.paymentMode with
  | some t, some pm =>
    ({ counter := some seq,
       bills := st.bills ++
         [{ billNumber := bn, customerPhone := r.customerPhone.getD "",
            total := t, paymentMode := pm, items := r.items, createdAt := now }] },
     CreateResult.created seq bn)
  | _, _ => ({ counter := some seq, bills := st.bills }, CreateResult.failed seq)

/-- Run a sequence of bill-creation requests one after the other,
returning the final store and the sequence values consumed by the
successful creations, in order. -/
def runBills : Store → List (Date × BillRequest) → Store × List Nat
  | st, [] => (st, [])
  | st, (now, r) :: rest =>
    let step := createBill st now r
    let tail := runBills step.1 rest
    match step.2 with
    | CreateResult.created s _ => (tail.1, s :: tail.2)
    | CreateResult.failed _ => (tail.1, tail.2)

/-- Modelled from the spec (§4.3, step 5, "accumulate quantity sold per
product name ...; sort descending by quantity, ties broken by
first-encountered order (stable sort); take the top 5"): the spec's own
description of the top-products computation, to be compared with the
pipeline model `topProductsFacet`. -/
def specTopProducts (bills : List Bill) : List TopProduct :=
  ((List.insertionSort qtyGe
      ((dedupFirst ((bills.map (fun b => b.items)).flatten.map (fun it => it.name))).map
        (fun n => (n, (((bills.map (fun b => b.items)).flatten.filter
            (fun it => it.name == n)).map (fun it => it.qty)).sum)))).take 5).map
    (fun p => ⟨p.1, p.2⟩)

/-- Total quantity sold of product `n` across all bills of the window. -/
def itemQtySum (n : String) (bills : List Bill) : Int :=
  (((bills.map (fun b => b.items)).flatten.filter (fun it => it.name == n)).map
    (fun it => it.qty)).sum

/-! Concrete inputs used by counterexamples and witnesses. -/

/-- An instant on 30 September 2025. -/
def sep30 : Date := { y := 2025, m := 9, d := 30, tod := 0 }

/-- An instant on 1 October 2025. -/
def oct1 : Date := { y := 2025, m := 10, d := 1, tod := 0 }

/-- A bill dated 30 September 2025. -/
def billSep : Bill :=
  { billNumber := "INV-1", customerPhone := "", total := 10,
    paymentMode := "cash", items := [], createdAt := sep30 }

/-- A bill dated 1 October 2025. -/
def billOct : Bill :=
  { billNumber := "INV-2", customerPhone := "", total := 20,
    paymentMode := "upi", items := [], createdAt := oct1 }

/-- One bill containing ten distinct products, each sold once. -/
def tenProductBill : Bill :=
  { billNumber := "INV-3", customerPhone := "", total := 100,
    paymentMode := "cash",
    items := [⟨"p1", 1⟩, ⟨"p2", 1⟩, ⟨"p3", 1⟩, ⟨"p4", 1⟩, ⟨"p5", 1⟩,
              ⟨"p6", 1⟩, ⟨"p7", 1⟩, ⟨"p8", 1⟩, ⟨"p9", 1⟩, ⟨"p10", 1⟩],
    createdAt := oct1 }

/-- The empty store: no counter document, no bills. -/
def store0 : Store := { counter := none, bills := [] }

/-- A well-formed creation request. -/
def reqOk : BillRequest :=
  { customerPhone := some "9999", items := [⟨"p1", 2⟩],
    total := some 40, paymentMode := some "cash" }

/-- A creation request whose `total` is negative but present. -/
def reqNegTotal : BillRequest :=
  { customerPhone := none, items := [],
    total := some (-5), paymentMode := some "cash" }

/-! Helper lemmas. -/

/-- Summing a conditional over a list equals summing over the filtered list. -/
theorem sum_map_ite (p : Bill → Bool) (l : List Bill) :
    (l.map (fun b => if p b then b.total else 0)).sum
      = ((l.filter p).map (fun b => b.total)).sum := by
  induction l with
  | nil => rfl
  | cons b l ih => cases h : p b <;> simp [List.filter_cons, h, ih]

/-- Filtering a mapped list is mapping the filtered list. -/
theorem filter_of_map {α β : Type} (f : α → β) (p : β → Bool) (l : List α) :
    (l.map f).filter p = (l.filter (fun a => p (f a))).map f := by
  induction l with
  | nil => rfl
  | cons a l ih => cases h : p (f a) <;> simp [List.filter_cons, h, ih]

/-- Projecting the keys out of an ordered insert by key is an ordered
insert of the key. -/
theorem map_fst_orderedInsert (p : String × Int) (l : List (String × Int)) :
    (List.orderedInsert labelLe p l).map Prod.fst
      = List.orderedInsert (fun a b => strLe a b = true) p.1 (l.map Prod.fst) := by
  induction l with
  | nil => rfl
  | cons q l ih =>
    by_cases h : strLe p.1 q.1 = true
    · simp [List.orderedInsert, labelLe, h]
    · simp [List.orderedInsert, labelLe, h, ih]

/-- Projecting the keys out of a sort by key is a sort of the keys. -/
theorem map_fst_insertionSort (l : List (String × Int)) :
    (List.insertionSort labelLe l).map Prod.fst
      = List.insertionSort (fun a b => strLe a b = true) (l.map Prod.fst) := by
  induction l with
  | nil => rfl
  | cons p l ih => simp [List.insertionSort, map_fst_orderedInsert, ih]

/-- Every call consumes exactly the next counter value. -/
theorem createBill_seq (st : Store) (now : Date) (r : BillRequest) :
    (createBill st now r).2.seq = nextSeq st := by
  cases ht : r.total <;> cases hp : r.paymentMode <;>
    simp [createBill, CreateResult.seq, ht, hp]

/-- Every call advances the stored counter to the consumed value. -/
theorem createBill_counter (st : Store) (now : Date) (r : BillRequest) :
    (createBill st now r).1.counter = some (nextSeq st) := by
  cases ht : r.total <;> cases hp : r.paymentMode <;>
    simp [createBill, ht, hp]

/-- After a call the next value to be consumed is one larger. -/
theorem nextSeq_createBill (st : Store) (now : Date) (r : BillRequest) :
    nextSeq (createBill st now r).1 = nextSeq st + 1 := by
  have h := createBill_counter st now r
  simp [nextSeq, h]

/-- A successful call returns the next counter value and the invoice
string built from it. -/
theorem createBill_created_eq (st : Store) (now : Date) (r : BillRequest)
    {s : Nat} {bn : String}
    (h : (createBill st now r).2 = CreateResult.created s bn) :
    s = nextSeq st ∧ bn = "INV-" ++ toString (nextSeq st) := by
  cases ht : r.total <;> cases hp : r.paymentMode <;>
    simp [createBill, ht, hp] at h
  exact ⟨h.1.symm, h.2.symm⟩

/-- The billNumbers persisted by one call: unchanged on validation
failure, extended by the new invoice string on success. -/
theorem createBill_bills_map (st : Store) (now : Date) (r : BillRequest) :
    (createBill st now r).1.bills.map (fun b => b.billNumber)
      = st.bills.map (fun b => b.billNumber)
        ++ (match (createBill st now r).2 with
            | CreateResult.created _ bn => [bn]
            | CreateResult.failed _ => []) := by
  cases ht : r.total <;> cases hp : r.paymentMode <;>
    simp [createBill, ht, hp]

/-- Along a run, the consumed values of the successful creations are
pairwise increasing and bounded below by the next value of the start
state. -/
theorem runBills_seqs (reqs : List (Date × BillRequest)) :
    ∀ st : Store,
      List.Pairwise (· < ·) (runBills st reqs).2 ∧
      ∀ s ∈ (runBills st reqs).2, nextSeq st ≤ s := by
  induction reqs with
  | nil =>
    intro st
    exact ⟨List.Pairwise.nil, by simp [runBills]⟩
  | cons pr rest ih =>
    intro st
    obtain ⟨now, r⟩ := pr
    obtain ⟨ihp, ihlb⟩ := ih (createBill st now r).1
    have hnext := nextSeq_createBill st now r
    cases hres : (createBill st now r).2 with
    | created s bn =>
      have hs : s = nextSeq st := (createBill_created_eq st now r hres).1
      have hrun : (runBills st ((now, r) :: rest)).2
          = s :: (runBills (createBill st now r).1 rest).2 := by
        simp [runBills, hres]
      rw [hrun]
      constructor
      · refine List.Pairwise.cons ?_ ihp
        intro t ht
        have h1 := ihlb t ht
        omega
      · intro t ht
        rcases List.mem_cons.mp ht with h | h
        · omega
        · have := ihlb t h
          omega
    | failed s =>
      have hrun : (runBills st ((now, r) :: rest)).2
          = (runBills (createBill st now r).1 rest).2 := by
        simp [runBills, hres]
      rw [hrun]
      refine ⟨ihp, fun t ht => ?_⟩
      have := ihlb t ht
      omega

/-- The billNumbers persisted along a run are the initial ones followed by
the invoice strings of the consumed values, in order. -/
theorem runBills_billNumbers (reqs : List (Date × BillRequest)) :
    ∀ st : Store,
      (runBills st reqs).1.bills.map (fun b => b.billNumber)
        = st.bills.map (fun b => b.billNumber)
          ++ (runBills st reqs).2.map (fun s => "INV-" ++ toString s) := by
  induction reqs with
  | nil =>
    intro st
    simp [runBills]
  | cons pr rest ih =>
    intro st
    obtain ⟨now, r⟩ := pr
    have hmap := createBill_bills_map st now r
    cases hres : (createBill st now r).2 with
    | created s bn =>
      have hbn : bn = "INV-" ++ toString (nextSeq st) :=
        (createBill_created_eq st now r hres).2
      have hs : s = nextSeq st := (createBill_created_eq st now r hres).1
      rw [hres] at hmap
      have hrun1 : (runBills st ((now, r) :: rest)).1
          = (runBills (createBill st now r).1 rest).1 := by
        simp [runBills, hres]
      have hrun2 : (runBills st ((now, r) :: rest)).2
          = s :: (runBills (createBill st now r).1 rest).2 := by
        simp [runBills, hres]
      rw [hrun1, hrun2, ih (createBill st now r).1, hmap]
      simp [hbn, hs]
    | failed s =>
      rw [hres] at hmap
      have hrun1 : (runBills st ((now, r) :: rest)).1
          = (runBills (createBill st now r).1 rest).1 := by
        simp [runBills, hres]
      have hrun2 : (runBills st ((now, r) :: rest)).2
          = (runBills (createBill st now r).1 rest).2 := by
        simp [runBills, hres]
      rw [hrun1, hrun2, ih (createBill st now r).1, hmap]
      simp

/-- C1: along any sequence of bill-creation calls, every successful
creation consumes a fresh counter value: the consumed values are strictly
increasing (hence pairwise distinct), and the bills persisted during the
run carry exactly the invoice numbers built from those distinct values, so
no two of them share a sequence value. -/
theorem createBill_run_seqs_strictMono (st : Store)
    (reqs : List (Date × BillRequest)) :
    List.Pairwise (· < ·) (runBills st reqs).2 ∧
    (runBills st reqs).2.Nodup ∧
    (runBills st reqs).1.bills.map (fun b => b.billNumber)
      = st.bills.map (fun b => b.billNumber)
        ++ (runBills st reqs).2.map (fun s => "INV-" ++ toString s) := by
  refine ⟨(runBills_seqs reqs st).1, ?_, runBills_billNumbers reqs st⟩
  exact (runBills_seqs reqs st).1.imp (fun h => Nat.ne_of_lt h)

/-- C6: over any window's bill set, `totalRevenue` is the sum of the
bills' `total` fields and `totalOrders` is the number of bills. -/
theorem totals_correct (bills : List Bill) :
    (analytics bills).totalRevenue = (bills.map (fun b => b.total)).sum ∧
    (analytics bills).totalOrders = (bills.length : Int) := by
  cases bills with
  | nil => exact ⟨rfl, rfl⟩
  | cons b l => exact ⟨rfl, rfl⟩

/-- C5: `paymentStats.cash` sums the totals of the bills whose
`paymentMode` is exactly `"cash"`, and `paymentStats.online` sums the
totals of every other bill, whatever its `paymentMode` value. -/
theorem paymentStats_split (bills : List Bill) :
    (analytics bills).paymentStats.cash
      = ((bills.filter (fun b => b.paymentMode == "cash")).map
          (fun b => b.total)).sum ∧
    (analytics bills).paymentStats.online
      = ((bills.filter (fun b => b.paymentMode != "cash")).map
          (fun b => b.total)).sum := by
  cases bills with
  | nil => exact ⟨rfl, rfl⟩
  | cons b l =>
    constructor
    · exact sum_map_ite (fun b => b.paymentMode == "cash") (b :: l)
    · exact sum_map_ite (fun b => b.paymentMode != "cash") (b :: l)

/-- C3 counterexample: on an empty window the chart is not the 7-entry,
all-zero one the claim promises — both the labels and the data are empty. -/
theorem analytics_empty_chart_not_padded :
    ¬ ((analytics []).chart.labels.length = 7 ∧
       (analytics []).chart.data = [0, 0, 0, 0, 0, 0, 0]) := by
  decide

/-- C3 amended: on an empty window the analytics route succeeds and
returns zero totals, a zero payment split, no top products, and an empty
chart (`labels = []`, `data = []`) rather than 7 zero-filled day buckets. -/
theorem analytics_empty_summary :
    analytics []
      = { totalRevenue := 0, totalOrders := 0,
          paymentStats := { cash := 0, online := 0 },
          chart := { labels := [], data := [] },
          topProducts := [] } := by
  rfl

/-- C2 counterexample: a window holding a single bill yields one chart
label, not the seven the claim promises. -/
theorem chart_labels_single_day_ne_seven :
    (analytics [billOct]).chart.labels.length ≠ 7 := by
  decide

/-- C2 amended: the chart labels are exactly the distinct day labels that
actually occur among the window's bills, sorted as strings — one entry per
day with sales, no zero-filled entries for the other days of the window. -/
theorem chart_labels_eq_sorted_distinct_days (bills : List Bill) :
    (analytics bills).chart.labels
      = List.insertionSort (fun a b => strLe a b = true)
          (dedupFirst (bills.map (fun b => dayLabel b.createdAt))) ∧
    (analytics bills).chart.labels.length
      = (dedupFirst (bills.map (fun b => dayLabel b.createdAt))).length := by
  have h1 : (analytics bills).chart.labels
      = List.insertionSort (fun a b => strLe a b = true)
          (dedupFirst (bills.map (fun b => dayLabel b.createdAt))) := by
    show (dailySalesFacet bills).map Prod.fst = _
    rw [dailySalesFacet, map_fst_insertionSort, groupSum]
    simp [List.map_map, Function.comp_def]
  refine ⟨h1, ?_⟩
  rw [h1]
  exact List.length_insertionSort _ _

/-- C4: with one bill on 30 September and one on 1 October (both inside
the 7-day window), the chart emits the newer day's label first — the
lexicographic sort of the `"%d/%m"` strings is not chronological across a
month boundary, although the labels and data stay parallel. -/
theorem analytics_month_boundary_label_order :
    (analytics [billSep, billOct]).chart.labels = ["01/10", "30/09"] ∧
    (analytics [billSep, billOct]).chart.data = [20, 10] ∧
    billSep.createdAt.key < billOct.createdAt.key := by
  refine ⟨by decide, by decide, by decide⟩

/-- C8 counterexample: a request with a negative `total` (and a present
`paymentMode`) is not rejected — the bill is persisted, because
`BillSchema` puts no `min` constraint on `total`. -/
theorem negative_total_bill_accepted :
    reqNegTotal.total = some (-5) ∧
    (createBill store0 oct1 reqNegTotal).2.isFailure = false ∧
    (createBill store0 oct1 reqNegTotal).1.bills ≠ ([] : List Bill) := by
  refine ⟨rfl, rfl, ?_⟩
  decide

/-- C8 amended: a bill-creation request fails validation (persisting no
bill) exactly when `total` or `paymentMode` is missing; in particular a
negative `total` passes validation and the bill is persisted. -/
theorem createBill_validation (st : Store) (now : Date) (r : BillRequest) :
    ((createBill st now r).2.isFailure
      = (r.total.isNone || r.paymentMode.isNone)) ∧
    (createBill st now r).1.bills.length
      = st.bills.length
        + (if (createBill st now r).2.isFailure then 0 else 1) := by
  cases ht : r.total <;> cases hp : r.paymentMode <;>
    simp [createBill, CreateResult.isFailure, ht, hp]

/-- C9: a successful creation responds with (and persists) a billNumber
that is the string `INV-` followed by exactly the decimal rendering of the
sequence value the call consumed. -/
theorem billNumber_format (st : Store) (now : Date) (r : BillRequest)
    (s : Nat) (bn : String)
    (h : (createBill st now r).2 = CreateResult.created s bn) :
    bn = "INV-" ++ toString s ∧ s = nextSeq st ∧
    (createBill st now r).1.bills.map (fun b => b.billNumber)
      = st.bills.map (fun b => b.billNumber) ++ [bn] := by
  obtain ⟨hs, hbn⟩ := createBill_created_eq st now r h
  subst hs
  refine ⟨hbn, rfl, ?_⟩
  have hm := createBill_bills_map st now r
  rw [h] at hm
  exact hm

/-- C9 witness: the first creation on an empty store consumes sequence
value 1 and yields billNumber `INV-1`. -/
theorem billNumber_format_witness :
    "INV-1" = "INV-" ++ toString (1 : Nat) ∧ (1 : Nat) = nextSeq store0 ∧
    (createBill store0 oct1 reqOk).1.bills.map (fun b => b.billNumber)
      = store0.bills.map (fun b => b.billNumber) ++ ["INV-1"] :=
  billNumber_format store0 oct1 reqOk 1 "INV-1" (by decide)

/-- C10: the bill listing is sorted newest-first by `createdAt` and
returns at most 50 bills — exactly 50 whenever more than 50 are stored;
its only input is the stored bill set (no `since`/`limit` parameter). -/
theorem listBills_sorted_capped (bills : List Bill) :
    List.Sorted createdAtDesc (listBills bills) ∧
    (listBills bills).length = min 50 bills.length := by
  constructor
  · exact List.Pairwise.sublist (List.take_sublist _ _)
      (List.sorted_insertionSort createdAtDesc bills)
  · rw [listBills, List.length_take, List.length_insertionSort]

/-- The `$group` of the `topProducts` facet, characterized over the
unwound items: one entry per distinct product name in first-encounter
order, each carrying the summed quantity of that product. -/
theorem groupSum_items (bills : List Bill) :
    groupSum ((bills.map (fun b => b.items)).flatten.map
        (fun it => (it.name, it.qty)))
      = (dedupFirst ((bills.map (fun b => b.items)).flatten.map
          (fun it => it.name))).map
          (fun n => (n, (((bills.map (fun b => b.items)).flatten.filter
              (fun it => it.name == n)).map (fun it => it.qty)).sum)) := by
  rw [groupSum]
  have hk : ((bills.map (fun b => b.items)).flatten.map
        (fun it => (it.name, it.qty))).map Prod.fst
      = (bills.map (fun b => b.items)).flatten.map (fun it => it.name) := by
    simp [List.map_map, Function.comp_def]
  rw [hk]
  have hf : (fun k => (k, valSum k ((bills.map (fun b => b.items)).flatten.map
        (fun it => (it.name, it.qty)))))
      = (fun n => (n, (((bills.map (fun b => b.items)).flatten.filter
          (fun it => it.name == n)).map (fun it => it.qty)).sum)) := by
    funext n
    simp only [valSum]
    rw [filter_of_map]
    simp [List.map_map, Function.comp_def]
  rw [hf]

/-- C7: the `topProducts` pipeline is exactly the spec's description —
accumulate `qty` per product name, stable-sort descending by accumulated
quantity (first-encounter order breaking ties), take 5. Its output is
sorted descending, every entry's quantity is the product's total quantity
sold in the window, its length is the smaller of 5 and the number of
distinct product names, and for ten distinct products each sold once it
has exactly 5 entries. -/
theorem topProducts_spec (bills : List Bill) :
    (analytics bills).topProducts = specTopProducts bills ∧
    List.Pairwise (fun a b : TopProduct => b.qty ≤ a.qty)
      (analytics bills).topProducts ∧
    ((analytics bills).topProducts.all
      (fun p => p.qty == itemQtySum p.name bills)) = true ∧
    (analytics bills).topProducts.length
      = min 5 (dedupFirst ((bills.map (fun b => b.items)).flatten.map
          (fun it => it.name))).length ∧
    (analytics [tenProductBill]).topProducts.length = 5 := by
  have h1 : (analytics bills).topProducts = specTopProducts bills := by
    show (topProductsFacet bills).map (fun p => (⟨p.1, p.2⟩ : TopProduct))
        = specTopProducts bills
    rw [topProductsFacet, specTopProducts, groupSum_items]
  have hsorted : List.Pairwise qtyGe
      ((List.insertionSort qtyGe (groupSum
        ((bills.map (fun b => b.items)).flatten.map
          (fun it => (it.name, it.qty))))).take 5) :=
    List.Pairwise.sublist (List.take_sublist _ _)
      (List.sorted_insertionSort qtyGe _)
  have h2 : List.Pairwise (fun a b : TopProduct => b.qty ≤ a.qty)
      (analytics bills).topProducts := by
    show List.Pairwise _ (((List.insertionSort qtyGe (groupSum
        ((bills.map (fun b => b.items)).flatten.map
          (fun it => (it.name, it.qty))))).take 5).map
        (fun p => (⟨p.1, p.2⟩ : TopProduct)))
    rw [List.pairwise_map]
    exact hsorted
  have h3 : ∀ p ∈ (analytics bills).topProducts,
      p.qty = itemQtySum p.name bills := by
    intro p hp
    have hp' : p ∈ ((List.insertionSort qtyGe (groupSum
        ((bills.map (fun b => b.items)).flatten.map
          (fun it => (it.name, it.qty))))).take 5).map
        (fun q => (⟨q.1, q.2⟩ : TopProduct)) := hp
    obtain ⟨q, hq, rfl⟩ := List.mem_map.mp hp'
    have hq2 : q ∈ List.insertionSort qtyGe (groupSum
        ((bills.map (fun b => b.items)).flatten.map
          (fun it => (it.name, it.qty)))) :=
      (List.take_sublist _ _).subset hq
    have hq3 : q ∈ groupSum ((bills.map (fun b => b.items)).flatten.map
        (fun it => (it.name, it.qty))) :=
      (List.perm_insertionSort qtyGe _).subset hq2
    rw [groupSum_items] at hq3
    obtain ⟨n, hn, rfl⟩ := List.mem_map.mp hq3
    rfl
  have h3b : ((analytics bills).topProducts.all
      (fun p => p.qty == itemQtySum p.name bills)) = true := by
    rw [List.all_eq_true]
    intro p hp
    rw [h3 p hp]
    exact beq_self_eq_true _
  have h4 : (analytics bills).topProducts.length
      = min 5 (dedupFirst ((bills.map (fun b => b.items)).flatten.map
          (fun it => it.name))).length := by
    show (((List.insertionSort qtyGe (groupSum
        ((bills.map (fun b => b.items)).flatten.map
          (fun it => (it.name, it.qty))))).take 5).map
        (fun p => (⟨p.1, p.2⟩ : TopProduct))).length = _
    rw [List.length_map, List.length_take, List.length_insertionSort,
      groupSum_items, List.length_map]
  exact ⟨h1, h2, h3b, h4, by decide⟩

end Billing
